import Mathlib

/-!
# stk: a shallow embedding of `main.go`

`stk` drives CloudFormation through a create or an update (change set) flow, each
state-changing step gated by a `(y/n)` prompt on standard input.

The embedding keeps the functions of `main.go` under their own names.  Everything the
program asks of the outside (AWS, the file system, the YAML decoder, the clock) is a field
of `World`; what a run changes (the unread standard input, the calls it has issued) is
threaded through `State`.  A Go `error` is its message, `nil` is `none`; a Go pointer that
may be `nil` is an `Option`.  Text read from standard input is a list of characters: the
input is taken to be valid UTF-8, and sizes count characters.

The library functions `yn` rests on are embedded from their Go sources:
`strings.TrimSpace` with `unicode.IsSpace`, and `bufio.Reader.ReadString` with the
buffering that makes a reader take more from its stream than it hands out.
-/

namespace Stk

/-! ## Go values -/

/-- A Go `error`, identified with its message. -/
abbrev Error := String

/-- How a Go function call ends: it returns, it panics with a value, or the process
exits (`log.Fatalf`). -/
inductive Outcome (α : Type) where
  | ret (a : α)
  | panic (msg : String)
  | exit (code : Nat)
  deriving Repr, DecidableEq

/-- A Go `map[string]α`: its entries, listed in the order a `range` loop visits them
(Go leaves that order unspecified, so nothing below depends on it), no key twice. -/
structure GoMap (α : Type) where
  entries : List (String × α)
  nodup : (entries.map Prod.fst).Nodup

/-- The two-valued index expression `v, ok := m[k]`: `none` stands for `ok == false`. -/
def GoMap.get {α : Type} (m : GoMap α) (k : String) : Option α :=
  m.entries.lookup k

/-- The `Stack` struct of `main.go`, one entry of the stack file. -/
structure Stack where
  Region : String
  Template : String
  Parameters : GoMap String
  Capabilities : List String

/-! ## The AWS SDK's request and response records (the fields `main.go` touches) -/

/-- `cloudformation.Parameter`. -/
structure Parameter where
  ParameterKey : Option String
  ParameterValue : Option String
  deriving Repr, DecidableEq

/-- `cloudformation.CreateStackInput`. -/
structure CreateStackInput where
  StackName : Option String
  Parameters : List Parameter
  TemplateBody : Option String
  Capabilities : List (Option String)
  deriving Repr, DecidableEq

/-- `CFNParams`, which only embeds a `CreateStackInput`. -/
structure CFNParams where
  CreateStackInput : CreateStackInput
  deriving Repr, DecidableEq

/-- `cloudformation.CreateChangeSetInput`. -/
structure CreateChangeSetInput where
  ChangeSetName : Option String
  StackName : Option String
  Parameters : List Parameter
  TemplateBody : Option String
  Capabilities : List (Option String)
  deriving Repr, DecidableEq

/-- `cloudformation.DescribeChangeSetInput`. -/
structure DescribeChangeSetInput where
  ChangeSetName : Option String
  StackName : Option String
  deriving Repr, DecidableEq

/-- `cloudformation.ExecuteChangeSetInput`. -/
structure ExecuteChangeSetInput where
  ChangeSetName : Option String
  StackName : Option String
  deriving Repr, DecidableEq

/-- `cloudformation.CreateStackOutput`. -/
structure CreateStackOutput where
  StackId : Option String
  deriving Repr, DecidableEq

/-- `cloudformation.CreateChangeSetOutput`. -/
structure CreateChangeSetOutput where
  StackId : Option String
  deriving Repr, DecidableEq

/-- `sts.GetCallerIdentityOutput`. -/
structure GetCallerIdentityOutput where
  Account : Option String
  deriving Repr, DecidableEq

/-- `iam.ListAccountAliasesOutput`. -/
structure ListAccountAliasesOutput where
  AccountAliases : List (Option String)
  deriving Repr, DecidableEq

/-- The `*cloudformation.CloudFormation` client: `main.go` reads back only
`svc.Config.Region`, set by `aws.NewConfig().WithRegion`. -/
structure CloudFormation where
  Region : Option String
  deriving Repr, DecidableEq

/-! ## The outside world -/

/-- What the run is told by its collaborators. -/
structure World where
  /-- `session.NewSession()`: the error it returns, `none` for a session.  It is asked in
  `confirmAccount` and again in `getCFNParams`, and answers the same way both times. -/
  newSession : Option Error
  /-- `sts.GetCallerIdentity`. -/
  getCallerIdentity : Except Error GetCallerIdentityOutput
  /-- `iam.ListAccountAliases`. -/
  listAccountAliases : Except Error ListAccountAliasesOutput
  /-- `filepath.Abs`. -/
  abs : String → Except Error String
  /-- `ioutil.ReadFile`, the contents as a Go string. -/
  readFile : String → Except Error String
  /-- `yaml.Unmarshal` into a `map[string]Stack`. -/
  unmarshal : String → Except Error (GoMap Stack)
  /-- `time.Now().Unix()`. -/
  nowUnix : Int
  /-- `svc.CreateStack`. -/
  createStack : CloudFormation → CreateStackInput → Except Error CreateStackOutput
  /-- `svc.CreateChangeSet`. -/
  createChangeSet : CloudFormation → CreateChangeSetInput → Except Error CreateChangeSetOutput
  /-- `svc.WaitUntilChangeSetCreateComplete`: the error, `none` once the change set is ready. -/
  waitUntilChangeSetCreateComplete : CloudFormation → DescribeChangeSetInput → Option Error
  /-- `svc.ExecuteChangeSet`: the error, `none` on success. -/
  executeChangeSet : CloudFormation → ExecuteChangeSetInput → Option Error

/-- What a run does that can be seen from outside, in the order it happens. -/
inductive Event where
  /-- The call `sts.GetCallerIdentity`. -/
  | getCallerIdentity
  /-- The call `iam.ListAccountAliases`. -/
  | listAccountAliases
  /-- One call of `yn`: the text written to standard output and the answer returned. -/
  | yn (printed : String) (answer : Bool)
  /-- The call `svc.CreateStack` and whether it returned an error. -/
  | createStack (input : CreateStackInput) (err : Option Error)
  /-- The call `svc.CreateChangeSet` and whether it returned an error. -/
  | createChangeSet (input : CreateChangeSetInput) (err : Option Error)
  /-- The call `svc.WaitUntilChangeSetCreateComplete` and the error it returned. -/
  | waitUntilChangeSetCreateComplete (input : DescribeChangeSetInput) (err : Option Error)
  /-- The call `svc.ExecuteChangeSet` and the error it returned. -/
  | executeChangeSet (input : ExecuteChangeSetInput) (err : Option Error)
  /-- A line written with `fmt.Printf` outside `yn`. -/
  | printf (text : String)
  deriving Repr, DecidableEq

/-- The remote calls that change something: create-stack, create-change-set and
execute-change-set. -/
def Event.isMutation : Event → Bool
  | .createStack _ _ => true
  | .createChangeSet _ _ => true
  | .executeChangeSet _ _ => true
  | _ => false

/-- The event is a call of `svc.ExecuteChangeSet`. -/
def Event.isExecute : Event → Bool
  | .executeChangeSet _ _ => true
  | _ => false

/-- The event is a call of `svc.CreateStack`. -/
def Event.isCreateStack : Event → Bool
  | .createStack _ _ => true
  | _ => false

/-- The event is a call of `svc.WaitUntilChangeSetCreateComplete`. -/
def Event.isWait : Event → Bool
  | .waitUntilChangeSetCreateComplete _ _ => true
  | _ => false

/-- The event is a call of `yn`. -/
def Event.isPrompt : Event → Bool
  | .yn _ _ => true
  | _ => false

/-- Standard input as `read(2)` hands it out: each element is what one read delivers (a
terminal in line mode delivers a line at a time, a pipe or a file whatever is there); an
empty element, or the end of the list, is end of file.  A read into a buffer with less
room than the element takes what fits and leaves the remainder for the next read. -/
abbrev Stdin := List (List Char)

/-- What a run changes: the standard input not yet read from the operating system, and the
events so far. -/
structure State where
  stdin : Stdin
  trace : List Event

/-! ## `strings.TrimSpace` -/

/-- Go's `unicode.IsSpace`: in Latin-1 the characters `\t \n \v \f \r`, space, U+0085 and
U+00A0; above it the characters of the `White_Space` table. -/
def isSpace (c : Char) : Bool :=
  let r := c.toNat
  if r ≤ 0xFF then
    r = 0x09 || r = 0x0A || r = 0x0B || r = 0x0C || r = 0x0D || r = 0x20 || r = 0x85 || r = 0xA0
  else
    r = 0x1680 || (0x2000 ≤ r && r ≤ 0x200A) || r = 0x2028 || r = 0x2029 || r = 0x202F
      || r = 0x205F || r = 0x3000

/-- Go's `strings.TrimSpace` on a string read as its sequence of characters: the leading
and the trailing run of `unicode.IsSpace` characters are cut off. -/
def TrimSpace (s : List Char) : List Char :=
  ((s.dropWhile isSpace).reverse.dropWhile isSpace).reverse

/-! ## `bufio.Reader.ReadString` -/

/-- The size `bufio.NewReader` gives its buffer. -/
def defaultBufSize : Nat := 4096

/-- The search `bytes.IndexByte` makes in `ReadSlice`: the text up to and including the
first `delim`, and what follows it; `none` when `delim` does not occur. -/
def cutAfter (delim : Char) : List Char → Option (List Char × List Char)
  | [] => none
  | c :: cs =>
    if c = delim then some ([c], cs)
    else match cutAfter delim cs with
      | some (line, rest) => some (c :: line, rest)
      | none => none

/-- The characters and reads left in a standard input: the measure the read loop
decreases. -/
def Stdin.size : Stdin → Nat
  | [] => 0
  | chunk :: rest => chunk.length + 1 + Stdin.size rest

/-- A `bufio.Reader`: the characters it has read and not handed out (`buf[r:w]`), the
stream it reads from, and whether the stream has reported `io.EOF` (`b.err`). -/
structure Reader where
  buf : List Char
  rd : Stdin
  err : Bool
  deriving Repr, DecidableEq

/-- The function `bufio.NewReader`: an empty buffer over the stream. -/
def NewReader (rd : Stdin) : Reader := ⟨[], rd, false⟩

/-- The loop of `bufio.Reader.ReadString` (`collectFragments` around `ReadSlice`): `acc`
holds the full buffers already set aside.  Each turn looks for `delim` in the buffer;
failing that it returns what it has when the stream has ended, sets a full buffer aside,
or else fills the buffer with one read of the stream, which delivers at most the free
space of the buffer.  The buffer holds `defaultBufSize` characters where Go's holds as many
bytes: the two agree on ASCII input; on input with multi-byte characters the text returned
is still the same, and only how far the reader has read ahead can differ. -/
def ReadString.loop (delim : Char) (acc buf : List Char) (rd : Stdin) (err : Bool) :
    List Char × Reader :=
  match cutAfter delim buf with
  | some (line, rest) => (acc ++ line, ⟨rest, rd, err⟩)
  | none =>
    if err then (acc ++ buf, ⟨[], rd, false⟩)
    else if defaultBufSize ≤ buf.length then ReadString.loop delim (acc ++ buf) [] rd false
    else
      match rd with
      | [] => ReadString.loop delim acc buf [] true
      | chunk :: rest =>
        if chunk = [] then ReadString.loop delim acc buf rest true
        else if chunk.length ≤ defaultBufSize - buf.length then
          ReadString.loop delim acc (buf ++ chunk) rest false
        else
          ReadString.loop delim acc (buf ++ chunk.take (defaultBufSize - buf.length))
            (chunk.drop (defaultBufSize - buf.length) :: rest) false
termination_by (rd.size + (if err then 0 else 1), buf.length)
decreasing_by
  all_goals simp_wf
  all_goals simp_all [Stdin.size, Prod.lex_def, defaultBufSize]
  all_goals omega

/-- The method `bufio.Reader.ReadString`: the text up to and including the first `delim`
(all that is left when the stream ends first), and the reader afterwards. -/
def Reader.ReadString (b : Reader) (delim : Char) : List Char × Reader :=
  ReadString.loop delim [] b.buf b.rd b.err

/-! ## `main.go` -/

/-- The panic of dereferencing a nil pointer. -/
def nilDeref : String := "runtime error: invalid memory address or nil pointer dereference"

/-- The function `yn`: a fresh `bufio.Reader` over standard input, the prompt printed, one
`ReadString('\n')` (its error dropped), and the comparison of the trimmed text with `"y"`.
The reader is local to the call: what it has buffered is gone when `yn` returns, and
standard input is left where the reader stopped reading it. -/
def yn (prompt : String) (s : State) : Bool × State :=
  let reader := NewReader s.stdin
  let printed := prompt ++ " (y/n): "
  let (text, reader) := reader.ReadString '\n'
  let answer := decide (TrimSpace text = ['y'])
  (answer, { stdin := reader.rd, trace := s.trace ++ [Event.yn printed answer] })

/-- The slice `aliases` of `confirmAccount`: every `*a`; `none` when one is nil. -/
def derefAll : List (Option String) → Option (List String)
  | [] => some []
  | none :: _ => none
  | some a :: rest => (derefAll rest).map (a :: ·)

/-- The function `confirmAccount`: returns `(bool, error)`. -/
def confirmAccount (w : World) (s : State) : Outcome (Bool × Option Error) × State :=
  match w.newSession with
  | some e => (.panic e, s)
  | none =>
    let s1 : State := { s with trace := s.trace ++ [Event.getCallerIdentity] }
    match w.getCallerIdentity with
    | .error e => (.ret (false, some e), s1)
    | .ok sout =>
      match sout.Account with
      | none => (.panic nilDeref, s1)
      | some accountID =>
        let s2 : State := { s1 with trace := s1.trace ++ [Event.listAccountAliases] }
        match w.listAccountAliases with
        | .error e => (.ret (false, some e), s2)
        | .ok iout =>
          match derefAll iout.AccountAliases with
          | none => (.panic nilDeref, s2)
          | some aliases =>
            let (c, s3) :=
              yn ("continue with AWS account " ++ accountID ++ " "
                ++ ", ".intercalate aliases ++ "?") s2
            (.ret (c, none), s3)

/-- The function `getStackDefinitions`: returns `(map[string]Stack, error)`, the nil map
being the empty one; an unreadable file ends the process through `log.Fatalf`. -/
def getStackDefinitions (w : World) (path : String) :
    Outcome (GoMap Stack × Option Error) :=
  let filename := match w.abs path with
    | .ok f => f
    | .error _ => ""
  match w.readFile filename with
  | .error _ => .exit 1
  | .ok yamlFile =>
    match w.unmarshal yamlFile with
    | .error e => .ret (⟨[], List.nodup_nil⟩, some e)
    | .ok defs => .ret (defs, none)

/-- The `*cobra.Command` as `getCFNParams` reads it: the values of the flags
`stack-file` and `template-dir`. -/
structure Command where
  stackFile : String
  templateDir : String

/-- The function `getCFNParams`: returns `(*cloudformation.CloudFormation, *CFNParams,
error)`. -/
def getCFNParams (w : World) (cmd : Command) (args : List String) :
    Outcome (Option CloudFormation × Option CFNParams × Option Error) :=
  match args with
  | [] => .ret (none, none, some "no stack arg provided")
  | stackName :: _ =>
    match getStackDefinitions w cmd.stackFile with
    | .panic m => .panic m
    | .exit c => .exit c
    | .ret (stackDefs, err) =>
      if err ≠ none then .ret (none, none, err)
      else
        match stackDefs.get stackName with
        | none => .ret (none, none, err)
        | some stack =>
          let cs := stack.Capabilities.map some
          let ps := stack.Parameters.entries.map fun kv => Parameter.mk (some kv.1) (some kv.2)
          match w.abs (cmd.templateDir ++ "/" ++ stack.Template) with
          | .error e => .ret (none, none, some e)
          | .ok tpath =>
            match w.readFile tpath with
            | .error e => .ret (none, none, some e)
            | .ok tbodys =>
              if stack.Region = "" then .ret (none, none, some "no region provided")
              else
                match w.newSession with
                | some e => .panic e
                | none =>
                  .ret (some ⟨some stack.Region⟩,
                    some ⟨{ StackName := some stackName, Parameters := ps,
                            Capabilities := cs, TemplateBody := some tbodys }⟩,
                    none)

/-- The `Run` function of `createCmd`: it returns nothing and panics on an error. -/
def createCmd (w : World) (cmd : Command) (args : List String) (s : State) :
    Outcome Unit × State :=
  match confirmAccount w s with
  | (.panic m, s1) => (.panic m, s1)
  | (.exit c, s1) => (.exit c, s1)
  | (.ret (_, some e), s1) => (.panic e, s1)
  | (.ret (false, none), s1) => (.ret (), s1)
  | (.ret (true, none), s1) =>
    match getCFNParams w cmd args with
    | .panic m => (.panic m, s1)
    | .exit c => (.exit c, s1)
    | .ret (_, _, some e) => (.panic e, s1)
    | .ret (_, none, none) => (.panic nilDeref, s1)
    | .ret (none, some _, none) => (.panic nilDeref, s1)
    | .ret (some svc, some params, none) =>
      match params.CreateStackInput.StackName, svc.Region with
      | none, _ => (.panic nilDeref, s1)
      | some _, none => (.panic nilDeref, s1)
      | some stackName, some region =>
        match yn ("create stack " ++ stackName ++ " in region " ++ region ++ "?") s1 with
        | (false, s2) => (.ret (), s2)
        | (true, s2) =>
          let input : CreateStackInput :=
            { StackName := params.CreateStackInput.StackName
              Parameters := params.CreateStackInput.Parameters
              TemplateBody := params.CreateStackInput.TemplateBody
              Capabilities := params.CreateStackInput.Capabilities }
          match w.createStack svc input with
          | .error e =>
            (.panic e, { s2 with trace := s2.trace ++ [Event.createStack input (some e)] })
          | .ok out =>
            let s3 : State := { s2 with trace := s2.trace ++ [Event.createStack input none] }
            match out.StackId with
            | none => (.panic nilDeref, s3)
            | some stackId =>
              (.ret (), { s3 with
                trace := s3.trace ++ [Event.printf ("created stack " ++ stackId ++ "\n")] })

/-- The `RunE` function of `updateCmd`: it returns an `error`. -/
def updateCmd (w : World) (cmd : Command) (args : List String) (s : State) :
    Outcome (Option Error) × State :=
  match confirmAccount w s with
  | (.panic m, s1) => (.panic m, s1)
  | (.exit c, s1) => (.exit c, s1)
  | (.ret (_, some e), s1) => (.ret (some e), s1)
  | (.ret (false, none), s1) => (.ret none, s1)
  | (.ret (true, none), s1) =>
    match getCFNParams w cmd args with
    | .panic m => (.panic m, s1)
    | .exit c => (.exit c, s1)
    | .ret (_, _, some e) => (.ret (some e), s1)
    | .ret (_, none, none) => (.panic nilDeref, s1)
    | .ret (none, some _, none) => (.panic nilDeref, s1)
    | .ret (some svc, some params, none) =>
      let name : String := "stk-" ++ toString w.nowUnix
      let input : CreateChangeSetInput :=
        { ChangeSetName := some name
          StackName := params.CreateStackInput.StackName
          Parameters := params.CreateStackInput.Parameters
          TemplateBody := params.CreateStackInput.TemplateBody
          Capabilities := params.CreateStackInput.Capabilities }
      match w.createChangeSet svc input with
      | .error e =>
        (.ret (some e), { s1 with trace := s1.trace ++ [Event.createChangeSet input (some e)] })
      | .ok chc =>
        let s2 : State := { s1 with trace := s1.trace ++ [Event.createChangeSet input none] }
        let describe : DescribeChangeSetInput :=
          { ChangeSetName := some name, StackName := params.CreateStackInput.StackName }
        let waited := w.waitUntilChangeSetCreateComplete svc describe
        let s3 : State :=
          { s2 with trace := s2.trace ++ [Event.waitUntilChangeSetCreateComplete describe waited] }
        match waited with
        | some e => (.ret (some e), s3)
        | none =>
          match svc.Region with
          | none => (.panic nilDeref, s3)
          | some region =>
            match yn ("execute change set " ++ name ++ " in region " ++ region ++ "?") s3 with
            | (false, s4) => (.ret none, s4)
            | (true, s4) =>
              let execute : ExecuteChangeSetInput :=
                { ChangeSetName := some name, StackName := params.CreateStackInput.StackName }
              let executed := w.executeChangeSet svc execute
              let s5 : State :=
                { s4 with trace := s4.trace ++ [Event.executeChangeSet execute executed] }
              match executed with
              | some e => (.ret (some e), s5)
              | none =>
                match chc.StackId with
                | none => (.panic nilDeref, s5)
                | some stackId =>
                  (.ret none, { s5 with
                    trace := s5.trace ++ [Event.printf ("executed change set on " ++ stackId ++ "\n")] })

/-- A run starts with nothing done yet: all of standard input unread, no event. -/
def State.start (stdin : Stdin) : State := { stdin := stdin, trace := [] }

/-! ## Concrete worlds

The stack file of the specification's end-to-end scenarios: one stack `foo` in `us-east-1`
with template `t.json` (contents `{}`), parameter `Env = prod` and capability
`CAPABILITY_IAM`; a second stack `noregion` that has no region and names a template that
does not exist; a third, `blank`, with no region and the template `t.json`. -/

/-- The definition of stack `foo`. -/
def fooStack : Stack :=
  { Region := "us-east-1", Template := "t.json",
    Parameters := ⟨[("Env", "prod")], by decide⟩,
    Capabilities := ["CAPABILITY_IAM"] }

/-- A definition without region whose template file is missing. -/
def noRegionStack : Stack :=
  { Region := "", Template := "missing.json",
    Parameters := ⟨[], by decide⟩, Capabilities := [] }

/-- A definition without region whose template file exists. -/
def blankStack : Stack :=
  { Region := "", Template := "t.json",
    Parameters := ⟨[], by decide⟩, Capabilities := [] }

/-- The registry the stack file decodes to. -/
def scenarioRegistry : GoMap Stack :=
  ⟨[("foo", fooStack), ("noregion", noRegionStack), ("blank", blankStack)], by decide⟩

/-- A world in which every collaborator answers and every remote call succeeds: account
`123456789012` with alias `acme`, the files `/stacks.yml` and `/t/t.json`. -/
def scenarioWorld : World :=
  { newSession := none
    getCallerIdentity := .ok ⟨some "123456789012"⟩
    listAccountAliases := .ok ⟨[some "acme"]⟩
    abs := fun p => .ok p
    readFile := fun f =>
      if f = "/stacks.yml" then .ok "foo: ..."
      else if f = "/t/t.json" then .ok "\x7b\x7d"
      else .error ("open " ++ f ++ ": no such file or directory")
    unmarshal := fun _ => .ok scenarioRegistry
    nowUnix := 1700000000
    createStack := fun _ _ => .ok ⟨some "arn:aws:cloudformation:stack/foo/1"⟩
    createChangeSet := fun _ _ => .ok ⟨some "arn:aws:cloudformation:stack/foo/1"⟩
    waitUntilChangeSetCreateComplete := fun _ _ => none
    executeChangeSet := fun _ _ => none }

/-- The flags of the scenarios: `--stack-file /stacks.yml --template-dir /t`. -/
def scenarioCmd : Command := { stackFile := "/stacks.yml", templateDir := "/t" }

/-- The scenario world, except that the change set fails to compute. -/
def failedWaitWorld : World :=
  { scenarioWorld with
    waitUntilChangeSetCreateComplete := fun _ _ => some "ResourceNotReady: failed waiting for successful resource state" }

/-- The scenario world, except that no AWS session can be built. -/
def noSessionWorld : World :=
  { scenarioWorld with newSession := some "failed to load shared config" }

/-- The scenario world run from a working directory that no longer exists: `filepath.Abs`
returns an absolute path as it is and fails on a relative one. -/
def noCwdWorld : World :=
  { scenarioWorld with
    abs := fun p =>
      if p.data.head? = some '/' then .ok p
      else .error "getwd: no such file or directory" }

/-- The flags `--stack-file /stacks.yml --template-dir t`: a relative template directory. -/
def relativeCmd : Command := { stackFile := "/stacks.yml", templateDir := "t" }

/-! ## Lemmas -/

/-- What `yn` leaves of standard input is where its reader stopped. -/
theorem yn_stdin (prompt : String) (s : State) :
    (yn prompt s).2.stdin = ((NewReader s.stdin).ReadString '\n').2.rd := by
  simp [yn]

/-- The function `yn` adds one event, its own. -/
theorem yn_trace (prompt : String) (s : State) :
    (yn prompt s).2.trace = s.trace ++ [Event.yn (prompt ++ " (y/n): ") (yn prompt s).1] := by
  simp [yn]

/-- In a map, looking a key up finds a value exactly when the pair is an entry. -/
theorem GoMap.get_eq_some_iff {α : Type} (m : GoMap α) (k : String) (v : α) :
    m.get k = some v ↔ (k, v) ∈ m.entries := by
  obtain ⟨entries, nodup⟩ := m
  simp only [GoMap.get]
  induction entries with
  | nil => simp
  | cons kv rest ih =>
    obtain ⟨k1, v1⟩ := kv
    simp only [List.map_cons, List.nodup_cons, List.mem_map, Prod.exists, exists_and_right,
      exists_eq_right, not_exists] at nodup
    by_cases hk : k = k1
    · subst hk
      simp only [List.lookup_cons, beq_self_eq_true, Option.some.injEq, List.mem_cons,
        Prod.mk.injEq, true_and]
      constructor
      · intro h; exact Or.inl h.symm
      · rintro (h | h)
        · exact h.symm
        · exact absurd h (nodup.1 v)
    · have hne : (k == k1) = false := by simpa using hk
      simp only [List.lookup_cons, hne, List.mem_cons, Prod.mk.injEq, hk, false_and, false_or]
      exact ih nodup.2

/-- What `getCFNParams` returns once the stack file has loaded and the name is not in it:
the `err` of the load, which is nil. -/
theorem getCFNParams_absent (w : World) (cmd : Command) (stackName : String)
    (rest : List String) (defs : GoMap Stack)
    (hdefs : getStackDefinitions w cmd.stackFile = .ret (defs, none))
    (habsent : defs.get stackName = none) :
    getCFNParams w cmd (stackName :: rest) = .ret (none, none, none) := by
  simp [getCFNParams, hdefs, habsent]

/-- What `getCFNParams` does once the stack file has loaded and the name is in it: the
steps after the lookup, on the stored record. -/
theorem getCFNParams_present (w : World) (cmd : Command) (stackName : String)
    (rest : List String) (defs : GoMap Stack) (stack : Stack)
    (hdefs : getStackDefinitions w cmd.stackFile = .ret (defs, none))
    (hstack : defs.get stackName = some stack) :
    getCFNParams w cmd (stackName :: rest) =
      match w.abs (cmd.templateDir ++ "/" ++ stack.Template) with
      | .error e => .ret (none, none, some e)
      | .ok tpath =>
        match w.readFile tpath with
        | .error e => .ret (none, none, some e)
        | .ok tbodys =>
          if stack.Region = "" then .ret (none, none, some "no region provided")
          else
            match w.newSession with
            | some e => .panic e
            | none =>
              .ret (some ⟨some stack.Region⟩,
                some ⟨{ StackName := some stackName,
                        Parameters := stack.Parameters.entries.map
                          fun kv => Parameter.mk (some kv.1) (some kv.2),
                        Capabilities := stack.Capabilities.map some,
                        TemplateBody := some tbodys }⟩,
                none) := by
  simp [getCFNParams, hdefs, hstack]

/-- The stack file of the scenario world loads into the scenario registry. -/
theorem scenario_definitions :
    getStackDefinitions scenarioWorld scenarioCmd.stackFile = .ret (scenarioRegistry, none) := by
  simp [getStackDefinitions, scenarioWorld, scenarioCmd]

/-- The request `getCFNParams` returns, when it returns one, carries the parameter list
built from the entries of the looked-up definition. -/
theorem returned_request_parameters (w : World) (cmd : Command) (stackName : String)
    (rest : List String) (defs : GoMap Stack) (stack : Stack)
    (svc : Option CloudFormation) (params : CFNParams) (err : Option Error)
    (hdefs : getStackDefinitions w cmd.stackFile = .ret (defs, none))
    (hstack : defs.get stackName = some stack)
    (hret : getCFNParams w cmd (stackName :: rest) = .ret (svc, some params, err)) :
    params.CreateStackInput.Parameters =
      stack.Parameters.entries.map fun kv => Parameter.mk (some kv.1) (some kv.2) := by
  rw [getCFNParams_present w cmd stackName rest defs stack hdefs hstack] at hret
  split at hret
  · simp at hret
  · split at hret
    · simp at hret
    · split at hret
      · simp at hret
      · split at hret
        · simp at hret
        · simp only [Outcome.ret.injEq, Prod.mk.injEq, Option.some.injEq] at hret
          rw [← hret.2.1]

/-- The two ways `confirmAccount` ends: with the answer of its prompt and no error, after
the two identity calls; or otherwise, having issued at most the two identity calls and no
prompt, standard input untouched. -/
theorem confirmAccount_cases (w : World) (s : State) :
    (∃ printed : String,
      confirmAccount w s =
        (.ret ((yn printed ⟨s.stdin,
            s.trace ++ [Event.getCallerIdentity, Event.listAccountAliases]⟩).1, none),
          (yn printed ⟨s.stdin,
            s.trace ++ [Event.getCallerIdentity, Event.listAccountAliases]⟩).2)) ∨
    (∃ (o : Outcome (Bool × Option Error)) (added : List Event),
      confirmAccount w s = (o, ⟨s.stdin, s.trace ++ added⟩) ∧
      (∀ c : Bool, o ≠ .ret (c, none)) ∧
      ∀ e ∈ added, e = Event.getCallerIdentity ∨ e = Event.listAccountAliases) := by
  unfold confirmAccount
  split
  · exact Or.inr ⟨.panic _, [], by simp; rfl, by simp, by simp⟩
  · split
    · exact Or.inr ⟨.ret (false, some _), [Event.getCallerIdentity], by simp; rfl,
        by simp, by simp⟩
    · split
      · exact Or.inr ⟨.panic _, [Event.getCallerIdentity], by simp; rfl, by simp, by simp⟩
      · split
        · exact Or.inr ⟨.ret (false, some _),
            [Event.getCallerIdentity, Event.listAccountAliases], by simp; rfl, by simp, by simp⟩
        · split
          · exact Or.inr ⟨.panic _, [Event.getCallerIdentity, Event.listAccountAliases],
              by simp; rfl, by simp, by simp⟩
          · rename_i accountID _ _ _ _ _ aliases _
            exact Or.inl ⟨"continue with AWS account " ++ accountID ++ " "
              ++ ", ".intercalate aliases ++ "?", by simp⟩

/-- When `confirmAccount` returns an answer and no error, the events so far are those
before it, the two identity calls and its prompt with that answer. -/
theorem confirmAccount_ret_trace (w : World) (s s1 : State) (c : Bool)
    (h : confirmAccount w s = (.ret (c, none), s1)) :
    ∃ printed : String,
      s1.trace = s.trace ++
        [Event.getCallerIdentity, Event.listAccountAliases, Event.yn printed c] := by
  rcases confirmAccount_cases w s with ⟨printed, hp⟩ | ⟨o, added, ho, hne, -⟩
  · rw [hp] at h
    simp only [Prod.mk.injEq, Outcome.ret.injEq, and_true] at h
    refine ⟨printed ++ " (y/n): ", ?_⟩
    rw [← h.2, yn_trace, h.1]
    simp
  · rw [ho] at h
    simp only [Prod.mk.injEq] at h
    exact absurd h.1 (hne c)

/-- The shapes a run of `updateCmd` can have.  Either it ends before the change set is
waited for, with no wait, no execute call and at most the account prompt; or the wait
fails and the run returns its error right after it; or the wait succeeds and the run ends
without the execute call, after at most one more prompt, answered false; or the wait
succeeds, the execute prompt is answered true and the execute call follows. -/
theorem updateCmd_shapes (w : World) (cmd : Command) (args : List String) (stdin : Stdin) :
    ((∀ e ∈ (updateCmd w cmd args (State.start stdin)).2.trace,
        e.isWait = false ∧ e.isExecute = false)) ∨
    (∃ (p : String) (input : CreateChangeSetInput) (describe : DescribeChangeSetInput)
        (e : Error),
      (updateCmd w cmd args (State.start stdin)).1 = .ret (some e) ∧
      (updateCmd w cmd args (State.start stdin)).2.trace =
        [Event.getCallerIdentity, Event.listAccountAliases, Event.yn p true,
          Event.createChangeSet input none,
          Event.waitUntilChangeSetCreateComplete describe (some e)]) ∨
    (∃ (p : String) (input : CreateChangeSetInput) (describe : DescribeChangeSetInput)
        (tail : List Event),
      (updateCmd w cmd args (State.start stdin)).2.trace =
        [Event.getCallerIdentity, Event.listAccountAliases, Event.yn p true,
          Event.createChangeSet input none,
          Event.waitUntilChangeSetCreateComplete describe none] ++ tail ∧
      (tail = [] ∨ ∃ q : String, tail = [Event.yn q false])) ∨
    (∃ (p : String) (input : CreateChangeSetInput) (describe : DescribeChangeSetInput)
        (name region : String) (execute : ExecuteChangeSetInput) (err : Option Error)
        (tail : List Event),
      (updateCmd w cmd args (State.start stdin)).2.trace =
        [Event.getCallerIdentity, Event.listAccountAliases, Event.yn p true,
          Event.createChangeSet input none,
          Event.waitUntilChangeSetCreateComplete describe none,
          Event.yn ("execute change set " ++ name ++ " in region " ++ region ++ "?" ++ " (y/n): ")
            true,
          Event.executeChangeSet execute err] ++ tail ∧
      (tail = [] ∨ ∃ text : String, tail = [Event.printf text])) := by
  rcases confirmAccount_cases w (State.start stdin) with ⟨printed, hp⟩ | ⟨o, added, ho, hne, hadded⟩
  · rcases hyn : yn printed ⟨(State.start stdin).stdin,
        (State.start stdin).trace ++ [Event.getCallerIdentity, Event.listAccountAliases]⟩
      with ⟨c, s1⟩
    have htr := yn_trace printed ⟨(State.start stdin).stdin,
        (State.start stdin).trace ++ [Event.getCallerIdentity, Event.listAccountAliases]⟩
    rw [hyn] at hp htr
    simp only [State.start, List.nil_append, List.cons_append] at htr
    unfold updateCmd
    rw [hp]
    cases c with
    | false =>
      left
      simp only [htr]
      intro e he
      simp only [List.mem_cons, List.mem_singleton, List.not_mem_nil, or_false] at he
      rcases he with rfl | rfl | rfl <;> exact ⟨rfl, rfl⟩
    | true =>
      have hearly : ∀ e ∈ s1.trace, e.isWait = false ∧ e.isExecute = false := by
        intro e he
        rw [htr] at he
        simp only [List.mem_cons, List.mem_singleton, List.not_mem_nil, or_false] at he
        rcases he with rfl | rfl | rfl <;> exact ⟨rfl, rfl⟩
      cases hg : getCFNParams w cmd args with
      | panic m => exact Or.inl (by simpa using hearly)
      | exit code => exact Or.inl (by simpa using hearly)
      | ret a =>
        obtain ⟨svc, params, err⟩ := a
        cases err with
        | some e1 => exact Or.inl (by simpa using hearly)
        | none =>
          cases params with
          | none => exact Or.inl (by simpa using hearly)
          | some params =>
            cases svc with
            | none => exact Or.inl (by simpa using hearly)
            | some svc =>
              simp only
              split
              · left
                intro e he
                simp only [List.mem_append, List.mem_singleton] at he
                rcases he with he | rfl
                · exact hearly e he
                · exact ⟨rfl, rfl⟩
              · split
                · rename_i hwait
                  right; left
                  simp only [htr, hwait, List.cons_append, List.nil_append]
                  exact ⟨_, _, _, _, rfl, rfl⟩
                · rename_i hwait
                  split
                  · right; right; left
                    simp only [htr, hwait, List.cons_append, List.nil_append]
                    exact ⟨_, _, _, [], rfl, Or.inl rfl⟩
                  · rename_i region hregion
                    split
                    · rename_i s4 hyn2
                      have h4 := congrArg (fun r => r.2.trace) hyn2
                      have h5 := congrArg Prod.fst hyn2
                      simp only [yn_trace, htr, hwait, List.cons_append, List.nil_append] at h4 h5
                      rw [h5] at h4
                      right; right; left
                      simp only [← h4]
                      exact ⟨_, _, _, _, rfl, Or.inr ⟨_, rfl⟩⟩
                    · rename_i s4 hyn2
                      have h4 := congrArg (fun r => r.2.trace) hyn2
                      have h5 := congrArg Prod.fst hyn2
                      simp only [yn_trace, htr, hwait, List.cons_append, List.nil_append] at h4 h5
                      rw [h5] at h4
                      right; right; right
                      split
                      · simp only [← h4, List.cons_append, List.nil_append]
                        exact ⟨_, _, _, "stk-" ++ toString w.nowUnix, region, _, _, [], rfl, Or.inl rfl⟩
                      · split
                        · simp only [← h4, List.cons_append, List.nil_append]
                          exact ⟨_, _, _, "stk-" ++ toString w.nowUnix, region, _, _, [], rfl, Or.inl rfl⟩
                        · simp only [← h4, List.cons_append, List.nil_append]
                          exact ⟨_, _, _, "stk-" ++ toString w.nowUnix, region, _, _, _, rfl, Or.inr ⟨_, rfl⟩⟩
  · left
    intro e he
    have hmem : e ∈ added := by
      unfold updateCmd at he
      rw [ho] at he
      cases o with
      | panic m => simpa [State.start] using he
      | exit c => simpa [State.start] using he
      | ret a =>
        obtain ⟨c, err⟩ := a
        cases err with
        | none => exact absurd rfl (hne c)
        | some e1 => simpa [State.start] using he
    rcases hadded e hmem with rfl | rfl <;> exact ⟨rfl, rfl⟩

/-- Once the delimiter is in the buffer, `ReadString` returns without reading. -/
theorem ReadString.loop_found (delim : Char) (acc buf : List Char) (rd : Stdin) (err : Bool)
    (line rest : List Char) (hcut : cutAfter delim buf = some (line, rest)) :
    ReadString.loop delim acc buf rd err = (acc ++ line, ⟨rest, rd, err⟩) := by
  cases rd <;> rw [ReadString.loop] <;> simp only [hcut]

/-- One read that delivers one whole line (ending in the delimiter, no longer than the
buffer): `ReadString` on a fresh reader returns that line and leaves the reads after it. -/
theorem ReadString_line (delim : Char) (line : List Char) (rest : Stdin)
    (hcut : cutAfter delim line = some (line, []))
    (hlen : line.length ≤ defaultBufSize) :
    (NewReader (line :: rest)).ReadString delim = (line, ⟨[], rest, false⟩) := by
  have hne : line ≠ [] := by
    rintro rfl
    simp [cutAfter] at hcut
  have hzero : ¬ defaultBufSize ≤ 0 := by decide
  simp only [Reader.ReadString, NewReader]
  rw [ReadString.loop]
  simp only [cutAfter, Bool.false_eq_true, if_false, List.length_nil, Nat.sub_zero,
    List.nil_append, hne, hlen, hzero, if_true]
  rw [ReadString.loop_found delim [] line rest false line [] hcut]
  simp

/-- Where every read delivers one line, as a terminal does, `yn` takes exactly the first
line: the reads after it are all there for the next prompt. -/
theorem yn_takes_one_line (prompt : String) (line : List Char) (rest : Stdin)
    (trace : List Event)
    (hcut : cutAfter '\n' line = some (line, []))
    (hlen : line.length ≤ defaultBufSize) :
    (yn prompt ⟨line :: rest, trace⟩).2.stdin = rest := by
  rw [yn_stdin]
  simp only [ReadString_line '\n' line rest hcut hlen]

/-- At end of file `yn` reads the empty text and answers false. -/
theorem yn_eof (prompt : String) (trace : List Event) :
    yn prompt ⟨[], trace⟩ = (false, ⟨[], trace ++ [Event.yn (prompt ++ " (y/n): ") false]⟩) := by
  simp [yn, NewReader, Reader.ReadString, ReadString.loop, cutAfter, defaultBufSize]
  decide

/-- Two lines `y` delivered by one read: `yn` answers true from the first and leaves
nothing, the second line staying behind in the buffer of its reader. -/
theorem yn_two_lines_one_read (prompt : String) (trace : List Event) :
    yn prompt ⟨[['y', '\n', 'y', '\n']], trace⟩ =
      (true, ⟨[], trace ++ [Event.yn (prompt ++ " (y/n): ") true]⟩) := by
  simp [yn, NewReader, Reader.ReadString, ReadString.loop, cutAfter, defaultBufSize]
  decide

/-- A line `y` delivered by one read: `yn` answers true and leaves the reads after it. -/
theorem yn_line_y (prompt : String) (rest : Stdin) (trace : List Event) :
    yn prompt ⟨['y', '\n'] :: rest, trace⟩ =
      (true, ⟨rest, trace ++ [Event.yn (prompt ++ " (y/n): ") true]⟩) := by
  simp only [yn, ReadString_line '\n' ['y', '\n'] rest (by decide) (by decide)]
  have htrim : TrimSpace ['y', '\n'] = ['y'] := by decide
  simp [htrim]

/-- A line `n` delivered by one read: `yn` answers false and leaves the reads after it. -/
theorem yn_line_n (prompt : String) (rest : Stdin) (trace : List Event) :
    yn prompt ⟨['n', '\n'] :: rest, trace⟩ =
      (false, ⟨rest, trace ++ [Event.yn (prompt ++ " (y/n): ") false]⟩) := by
  simp only [yn, ReadString_line '\n' ['n', '\n'] rest (by decide) (by decide)]
  have htrim : TrimSpace ['n', '\n'] = ['n'] := by decide
  simp [htrim]

/-- Where the session is built and both identity calls answer with non-nil fields, the
operator answering `y` in a line of its own, `confirmAccount` returns true. -/
theorem confirmAccount_line_y (w : World) (account : String) (aliases : List (Option String))
    (names : List String) (rest : Stdin)
    (hsession : w.newSession = none)
    (hidentity : w.getCallerIdentity = .ok ⟨some account⟩)
    (haliases : w.listAccountAliases = .ok ⟨aliases⟩)
    (hnames : derefAll aliases = some names) :
    ∃ printed : String,
      confirmAccount w (State.start (['y', '\n'] :: rest)) =
        (.ret (true, none),
          ⟨rest, [Event.getCallerIdentity, Event.listAccountAliases, Event.yn printed true]⟩) := by
  refine ⟨"continue with AWS account " ++ account ++ " " ++ ", ".intercalate names
    ++ "?" ++ " (y/n): ", ?_⟩
  simp only [confirmAccount, hsession, hidentity, haliases, hnames, State.start, yn_line_y,
    List.nil_append, List.cons_append]

/-- In the scenario world, the operator answering `y`, `confirmAccount` returns true. -/
theorem scenario_confirmAccount_y (rest : Stdin) :
    ∃ printed : String,
      confirmAccount scenarioWorld (State.start (['y', '\n'] :: rest)) =
        (.ret (true, none),
          ⟨rest, [Event.getCallerIdentity, Event.listAccountAliases, Event.yn printed true]⟩) :=
  confirmAccount_line_y scenarioWorld "123456789012" [some "acme"] ["acme"] rest rfl rfl rfl rfl

/-- The client and the request `getCFNParams` returns for stack `foo` in the scenario
world. -/
theorem scenario_getCFNParams_foo :
    getCFNParams scenarioWorld scenarioCmd ["foo"] =
      .ret (some ⟨some "us-east-1"⟩,
        some ⟨{ StackName := some "foo",
                Parameters := [⟨some "Env", some "prod"⟩],
                TemplateBody := some "\x7b\x7d",
                Capabilities := [some "CAPABILITY_IAM"] }⟩,
        none) := by
  rw [getCFNParams_present scenarioWorld scenarioCmd "foo" [] scenarioRegistry fooStack
    scenario_definitions rfl]
  rfl

/-- Scenario B of the specification: `update foo`, the operator answering `y` twice, one
line per read.  The run creates the change set, waits, executes, in that order. -/
theorem scenario_update_run :
    ∃ p q : String,
      updateCmd scenarioWorld scenarioCmd ["foo"] (State.start [['y', '\n'], ['y', '\n']]) =
        (.ret none,
          ⟨[], [Event.getCallerIdentity, Event.listAccountAliases, Event.yn p true,
            Event.createChangeSet
              { ChangeSetName := some ("stk-" ++ toString (1700000000 : Int)),
                StackName := some "foo",
                Parameters := [⟨some "Env", some "prod"⟩],
                TemplateBody := some "\x7b\x7d",
                Capabilities := [some "CAPABILITY_IAM"] } none,
            Event.waitUntilChangeSetCreateComplete
              ⟨some ("stk-" ++ toString (1700000000 : Int)), some "foo"⟩ none,
            Event.yn q true,
            Event.executeChangeSet
              ⟨some ("stk-" ++ toString (1700000000 : Int)), some "foo"⟩ none,
            Event.printf ("executed change set on " ++ "arn:aws:cloudformation:stack/foo/1"
              ++ "\n")]⟩) := by
  obtain ⟨p, hp⟩ := scenario_confirmAccount_y [['y', '\n']]
  refine ⟨p, "execute change set " ++ ("stk-" ++ toString (1700000000 : Int)) ++ " in region "
    ++ "us-east-1" ++ "?" ++ " (y/n): ", ?_⟩
  simp only [updateCmd, hp, scenario_getCFNParams_foo]
  simp only [scenarioWorld, yn_line_y, List.cons_append, List.nil_append]

/-- The world with the failing wait answers `getCFNParams` as the scenario world does. -/
theorem failedWait_getCFNParams_foo :
    getCFNParams failedWaitWorld scenarioCmd ["foo"] =
      .ret (some ⟨some "us-east-1"⟩,
        some ⟨{ StackName := some "foo",
                Parameters := [⟨some "Env", some "prod"⟩],
                TemplateBody := some "\x7b\x7d",
                Capabilities := [some "CAPABILITY_IAM"] }⟩,
        none) := by
  rw [getCFNParams_present failedWaitWorld scenarioCmd "foo" [] scenarioRegistry fooStack
    (by simp [getStackDefinitions, failedWaitWorld, scenarioWorld, scenarioCmd]) rfl]
  rfl

/-- The run `update foo` where the change set fails to compute: it ends with the wait. -/
theorem failedWait_update_run :
    ∃ p : String,
      updateCmd failedWaitWorld scenarioCmd ["foo"] (State.start [['y', '\n'], ['y', '\n']]) =
        (.ret (some "ResourceNotReady: failed waiting for successful resource state"),
          ⟨[['y', '\n']], [Event.getCallerIdentity, Event.listAccountAliases, Event.yn p true,
            Event.createChangeSet
              { ChangeSetName := some ("stk-" ++ toString (1700000000 : Int)),
                StackName := some "foo",
                Parameters := [⟨some "Env", some "prod"⟩],
                TemplateBody := some "\x7b\x7d",
                Capabilities := [some "CAPABILITY_IAM"] } none,
            Event.waitUntilChangeSetCreateComplete
              ⟨some ("stk-" ++ toString (1700000000 : Int)), some "foo"⟩
              (some "ResourceNotReady: failed waiting for successful resource state")]⟩) := by
  obtain ⟨p, hp⟩ := confirmAccount_line_y failedWaitWorld "123456789012" [some "acme"]
    ["acme"] [['y', '\n']] rfl rfl rfl rfl
  refine ⟨p, ?_⟩
  simp only [updateCmd, hp, failedWait_getCFNParams_foo]
  simp only [failedWaitWorld, scenarioWorld, List.cons_append, List.nil_append]

/-- The run `update foo` of the scenario world with both answers `y` arriving in one read,
as from a pipe: the account prompt is answered true, the execute prompt finds end of file,
and the change set is left unexecuted. -/
theorem scenario_update_run_piped :
    ∃ p q : String,
      updateCmd scenarioWorld scenarioCmd ["foo"] (State.start [['y', '\n', 'y', '\n']]) =
        (.ret none,
          ⟨[], [Event.getCallerIdentity, Event.listAccountAliases, Event.yn p true,
            Event.createChangeSet
              { ChangeSetName := some ("stk-" ++ toString (1700000000 : Int)),
                StackName := some "foo",
                Parameters := [⟨some "Env", some "prod"⟩],
                TemplateBody := some "\x7b\x7d",
                Capabilities := [some "CAPABILITY_IAM"] } none,
            Event.waitUntilChangeSetCreateComplete
              ⟨some ("stk-" ++ toString (1700000000 : Int)), some "foo"⟩ none,
            Event.yn q false]⟩) := by
  refine ⟨"continue with AWS account " ++ "123456789012" ++ " " ++ ", ".intercalate ["acme"]
    ++ "?" ++ " (y/n): ",
    "execute change set " ++ ("stk-" ++ toString (1700000000 : Int)) ++ " in region "
    ++ "us-east-1" ++ "?" ++ " (y/n): ", ?_⟩
  have hconfirm : confirmAccount scenarioWorld (State.start [['y', '\n', 'y', '\n']]) =
      (.ret (true, none), ⟨[], [Event.getCallerIdentity, Event.listAccountAliases,
        Event.yn ("continue with AWS account " ++ "123456789012" ++ " "
          ++ ", ".intercalate ["acme"] ++ "?" ++ " (y/n): ") true]⟩) := by
    simp only [confirmAccount, scenarioWorld, derefAll, Option.map, State.start,
      yn_two_lines_one_read, List.nil_append, List.cons_append]
  simp only [updateCmd, hconfirm, scenario_getCFNParams_foo]
  simp only [scenarioWorld, yn_eof, List.cons_append, List.nil_append]

/-- The run `update bar` of the scenario world, `bar` not being in the stack file: after
the account is confirmed the run panics on the nil request. -/
theorem scenario_update_unknown_name :
    (updateCmd scenarioWorld scenarioCmd ["bar"] (State.start [['y', '\n']])).1 =
      .panic nilDeref := by
  obtain ⟨p, hp⟩ := scenario_confirmAccount_y []
  simp only [updateCmd, hp, getCFNParams_absent scenarioWorld scenarioCmd "bar" []
    scenarioRegistry scenario_definitions rfl]

/-! ## The claims -/

/-- C1 (the code departs from the claim): in the scenario world the stack file loads, the
name `bar` is not in the registry, and `getCFNParams` returns `(nil, nil, nil)`: the error
it hands back is the nil error of the load, not a not-found error; `update bar` then
panics on the nil request instead of reporting the unknown stack. -/
theorem getCFNParams_unknown_name_returns_nil_error :
    getStackDefinitions scenarioWorld scenarioCmd.stackFile = .ret (scenarioRegistry, none) ∧
    scenarioRegistry.get "bar" = none ∧
    getCFNParams scenarioWorld scenarioCmd ["bar"] = .ret (none, none, none) ∧
    (updateCmd scenarioWorld scenarioCmd ["bar"] (State.start [['y', '\n']])).1 =
      .panic nilDeref :=
  ⟨scenario_definitions, rfl,
    getCFNParams_absent scenarioWorld scenarioCmd "bar" [] scenarioRegistry
      scenario_definitions rfl,
    scenario_update_unknown_name⟩

/-- C2, as stated, fails: stack `noregion` has an empty region and a template file that
cannot be read, and `getCFNParams` returns the read error, not `no region provided`. -/
theorem getCFNParams_empty_region_unreadable_template :
    scenarioRegistry.get "noregion" = some noRegionStack ∧ noRegionStack.Region = "" ∧
    getCFNParams scenarioWorld scenarioCmd ["noregion"] =
      .ret (none, none, some "open /t/missing.json: no such file or directory") ∧
    getCFNParams scenarioWorld scenarioCmd ["noregion"] ≠
      .ret (none, none, some "no region provided") := by
  have hget : scenarioRegistry.get "noregion" = some noRegionStack := rfl
  have hrun : getCFNParams scenarioWorld scenarioCmd ["noregion"] =
      .ret (none, none, some "open /t/missing.json: no such file or directory") := by
    rw [getCFNParams_present scenarioWorld scenarioCmd "noregion" [] scenarioRegistry
      noRegionStack scenario_definitions hget]
    simp [scenarioWorld, scenarioCmd, noRegionStack]
  refine ⟨hget, rfl, hrun, ?_⟩
  rw [hrun]
  decide

/-- C2, amended: for a stack definition with an empty region `getCFNParams` fails, that
is, returns a non-nil error and neither client nor request.  The error is the error of
`filepath.Abs` when the template path does not resolve, the error of `ioutil.ReadFile`
when the path resolves and the file is not read, and `no region provided` when the path
resolves and the file is read (the region is looked at after the template has been
read). -/
theorem getCFNParams_empty_region_fails (w : World) (cmd : Command) (stackName : String)
    (rest : List String) (defs : GoMap Stack) (stack : Stack)
    (hdefs : getStackDefinitions w cmd.stackFile = .ret (defs, none))
    (hstack : defs.get stackName = some stack)
    (hregion : stack.Region = "") :
    (∃ e : Error, getCFNParams w cmd (stackName :: rest) = .ret (none, none, some e)) ∧
    (∀ e : Error, w.abs (cmd.templateDir ++ "/" ++ stack.Template) = .error e →
      getCFNParams w cmd (stackName :: rest) = .ret (none, none, some e)) ∧
    (∀ (tpath : String) (e : Error),
      w.abs (cmd.templateDir ++ "/" ++ stack.Template) = .ok tpath →
      w.readFile tpath = .error e →
      getCFNParams w cmd (stackName :: rest) = .ret (none, none, some e)) ∧
    (∀ tpath tbody : String,
      w.abs (cmd.templateDir ++ "/" ++ stack.Template) = .ok tpath →
      w.readFile tpath = .ok tbody →
      getCFNParams w cmd (stackName :: rest) =
        .ret (none, none, some "no region provided")) := by
  rw [getCFNParams_present w cmd stackName rest defs stack hdefs hstack]
  refine ⟨?_, ?_, ?_, ?_⟩
  · cases habs : w.abs (cmd.templateDir ++ "/" ++ stack.Template) with
    | error e => exact ⟨e, rfl⟩
    | ok tpath =>
      cases hread : w.readFile tpath with
      | error e => exact ⟨e, by simp only [hread]⟩
      | ok tbody => exact ⟨"no region provided", by simp only [hread, hregion, if_true]⟩
  · intro e habs
    simp only [habs]
  · intro tpath e habs hread
    simp only [habs, hread]
  · intro tpath tbody habs hread
    simp only [habs, hread, hregion, if_true]

/-- C2, amended, at three definitions with an empty region: `blank`, whose template
`/t/t.json` is read, fails with `no region provided`; `noregion`, whose template is
missing, fails with the read error; and `blank` again under a relative template directory
that cannot be resolved fails with the error of `filepath.Abs`. -/
theorem getCFNParams_empty_region_fails_witness :
    getCFNParams scenarioWorld scenarioCmd ["blank"] =
      .ret (none, none, some "no region provided") ∧
    getCFNParams scenarioWorld scenarioCmd ["noregion"] =
      .ret (none, none, some "open /t/missing.json: no such file or directory") ∧
    getCFNParams noCwdWorld relativeCmd ["blank"] =
      .ret (none, none, some "getwd: no such file or directory") :=
  ⟨(getCFNParams_empty_region_fails scenarioWorld scenarioCmd "blank" [] scenarioRegistry
      blankStack scenario_definitions rfl rfl).2.2.2 "/t/t.json" "\x7b\x7d" rfl rfl,
    (getCFNParams_empty_region_fails scenarioWorld scenarioCmd "noregion" [] scenarioRegistry
      noRegionStack scenario_definitions rfl rfl).2.2.1 "/t/missing.json"
      "open /t/missing.json: no such file or directory" rfl rfl,
    (getCFNParams_empty_region_fails noCwdWorld relativeCmd "blank" [] scenarioRegistry
      blankStack (by simp [getStackDefinitions, noCwdWorld, scenarioWorld, relativeCmd])
      rfl rfl).2.1 "getwd: no such file or directory" rfl⟩

/-- C8, as stated, fails: stack `foo` has a region and a readable template, and where no
AWS session can be built `getCFNParams` panics (`session.Must`) instead of returning. -/
theorem getCFNParams_panics_without_session :
    scenarioRegistry.get "foo" = some fooStack ∧ fooStack.Region ≠ "" ∧
    noSessionWorld.abs (scenarioCmd.templateDir ++ "/" ++ fooStack.Template) = .ok "/t/t.json" ∧
    noSessionWorld.readFile "/t/t.json" = .ok "\x7b\x7d" ∧
    getCFNParams noSessionWorld scenarioCmd ["foo"] = .panic "failed to load shared config" := by
  have hget : scenarioRegistry.get "foo" = some fooStack := rfl
  refine ⟨hget, by decide, by simp [noSessionWorld, scenarioWorld, scenarioCmd, fooStack],
    by simp [noSessionWorld, scenarioWorld], ?_⟩
  rw [getCFNParams_present noSessionWorld scenarioCmd "foo" [] scenarioRegistry fooStack
    (by simp [getStackDefinitions, noSessionWorld, scenarioWorld, scenarioCmd]) hget]
  simp [noSessionWorld, scenarioWorld, scenarioCmd, fooStack]

/-- C8, amended: for a stack definition with a non-empty region whose template path
resolves and whose template file is read, `getCFNParams` succeeds (nil error, a client and
a request) when the AWS session can be built, and the `TemplateBody` of the request is
then the contents of the file at `templateDir + "/" + Template` as read; when, for such a
definition, `session.NewSession` returns an error, `getCFNParams` panics with that error
(`session.Must`) instead of returning. -/
theorem getCFNParams_template_body (w : World) (cmd : Command) (stackName : String)
    (rest : List String) (defs : GoMap Stack) (stack : Stack) (tpath tbody : String)
    (hdefs : getStackDefinitions w cmd.stackFile = .ret (defs, none))
    (hstack : defs.get stackName = some stack)
    (hregion : stack.Region ≠ "")
    (habs : w.abs (cmd.templateDir ++ "/" ++ stack.Template) = .ok tpath)
    (hread : w.readFile tpath = .ok tbody) :
    (w.newSession = none →
      ∃ (svc : CloudFormation) (params : CFNParams),
        getCFNParams w cmd (stackName :: rest) = .ret (some svc, some params, none) ∧
        params.CreateStackInput.TemplateBody = some tbody) ∧
    (∀ e : Error, w.newSession = some e →
      getCFNParams w cmd (stackName :: rest) = .panic e) := by
  rw [getCFNParams_present w cmd stackName rest defs stack hdefs hstack]
  refine ⟨fun hsession => ?_, fun e hsession => ?_⟩
  · simp only [habs, hread, hregion, hsession, if_false]
    exact ⟨_, _, rfl, rfl⟩
  · simp only [habs, hread, hregion, hsession, if_false]

/-- C8, amended, at stack `foo`: in the scenario world the request comes back with the
body `{}`; in the world without session the call panics with the session error. -/
theorem getCFNParams_template_body_witness :
    (∃ (svc : CloudFormation) (params : CFNParams),
      getCFNParams scenarioWorld scenarioCmd ["foo"] = .ret (some svc, some params, none) ∧
      params.CreateStackInput.TemplateBody = some "\x7b\x7d") ∧
    getCFNParams noSessionWorld scenarioCmd ["foo"] = .panic "failed to load shared config" :=
  ⟨(getCFNParams_template_body scenarioWorld scenarioCmd "foo" [] scenarioRegistry fooStack
      "/t/t.json" "\x7b\x7d" scenario_definitions rfl (by decide) rfl rfl).1 rfl,
    (getCFNParams_template_body noSessionWorld scenarioCmd "foo" [] scenarioRegistry fooStack
      "/t/t.json" "\x7b\x7d"
      (by simp [getStackDefinitions, noSessionWorld, scenarioWorld, scenarioCmd]) rfl
      (by decide) rfl rfl).2 "failed to load shared config" rfl⟩

/-- C9: when `getCFNParams` returns a request for a stack definition, the request's
parameter sequence has one pair per entry of the definition's parameter mapping and
nothing else: as many pairs as the mapping has keys, the pair `(k, v)` is in it exactly
when the mapping sends `k` to `v`, every pair in it is such a pair, and no key occurs in
two pairs. -/
theorem getCFNParams_parameters (w : World) (cmd : Command) (stackName : String)
    (rest : List String) (defs : GoMap Stack) (stack : Stack)
    (svc : Option CloudFormation) (params : CFNParams) (err : Option Error)
    (hdefs : getStackDefinitions w cmd.stackFile = .ret (defs, none))
    (hstack : defs.get stackName = some stack)
    (hret : getCFNParams w cmd (stackName :: rest) = .ret (svc, some params, err)) :
    params.CreateStackInput.Parameters.length = stack.Parameters.entries.length ∧
    (∀ k v : String, Parameter.mk (some k) (some v) ∈ params.CreateStackInput.Parameters ↔
      stack.Parameters.get k = some v) ∧
    (∀ p ∈ params.CreateStackInput.Parameters, ∃ k v : String,
      p = Parameter.mk (some k) (some v) ∧ stack.Parameters.get k = some v) ∧
    (params.CreateStackInput.Parameters.map (·.ParameterKey)).Nodup := by
  rw [returned_request_parameters w cmd stackName rest defs stack svc params err hdefs hstack hret]
  refine ⟨by simp, fun k v => ?_, fun p hp => ?_, ?_⟩
  · rw [GoMap.get_eq_some_iff]
    simp only [List.mem_map, Parameter.mk.injEq, Option.some.injEq, Prod.exists]
    constructor
    · rintro ⟨a, b, hmem, rfl, rfl⟩
      exact hmem
    · intro hmem
      exact ⟨k, v, hmem, rfl, rfl⟩
  · simp only [List.mem_map, Prod.exists] at hp
    obtain ⟨a, b, hmem, rfl⟩ := hp
    exact ⟨a, b, rfl, (GoMap.get_eq_some_iff _ a b).mpr hmem⟩
  · have hkeys : (stack.Parameters.entries.map
        fun kv => Parameter.mk (some kv.1) (some kv.2)).map (·.ParameterKey) =
        (stack.Parameters.entries.map Prod.fst).map some := by
      simp [List.map_map, Function.comp_def]
    rw [hkeys]
    exact stack.Parameters.nodup.map (Option.some_injective _)

/-- C9 at stack `foo` of the scenario world: the one pair `(Env, prod)`. -/
theorem getCFNParams_parameters_witness :
    ∃ (svc : CloudFormation) (params : CFNParams),
      getCFNParams scenarioWorld scenarioCmd ["foo"] = .ret (some svc, some params, none) ∧
      params.CreateStackInput.Parameters.length = 1 ∧
      Parameter.mk (some "Env") (some "prod") ∈ params.CreateStackInput.Parameters := by
  have h := getCFNParams_parameters scenarioWorld scenarioCmd "foo" [] scenarioRegistry
    fooStack _ _ none scenario_definitions rfl scenario_getCFNParams_foo
  exact ⟨_, _, scenario_getCFNParams_foo, h.1, (h.2.1 "Env" "prod").mpr rfl⟩

/-- C10 (the code departs from the claim): when one read of standard input delivers two
lines, as a pipe or a file does, the first `yn` answers from the first line and leaves
nothing: the second line went into the buffer of its own reader and is lost with it, and
the next `yn` finds end of file and answers false.  So `update foo` fed `y`, `y` through a
pipe stops at the execute prompt, where the same answers typed line by line execute the
change set. -/
theorem yn_loses_lines_read_ahead :
    (yn "continue?" (State.start [['y', '\n', 'y', '\n']])).1 = true ∧
    (yn "continue?" (State.start [['y', '\n', 'y', '\n']])).2.stdin = [] ∧
    (yn "continue?" (State.start [['y', '\n', 'y', '\n']])).2.stdin ≠ [['y', '\n']] ∧
    (yn "execute?" (yn "continue?" (State.start [['y', '\n', 'y', '\n']])).2).1 = false ∧
    (∀ e ∈ (updateCmd scenarioWorld scenarioCmd ["foo"]
        (State.start [['y', '\n', 'y', '\n']])).2.trace, e.isExecute = false) ∧
    (∃ e ∈ (updateCmd scenarioWorld scenarioCmd ["foo"]
        (State.start [['y', '\n'], ['y', '\n']])).2.trace, e.isExecute = true) := by
  simp only [State.start, yn_two_lines_one_read, yn_eof]
  refine ⟨trivial, trivial, by simp, trivial, ?_, ?_⟩
  · obtain ⟨p, q, hrun⟩ := scenario_update_run_piped
    simp only [State.start] at hrun
    rw [hrun]
    intro e he
    simp only [List.mem_cons, List.mem_singleton, List.not_mem_nil, or_false] at he
    rcases he with rfl | rfl | rfl | rfl | rfl | rfl <;> rfl
  · obtain ⟨p, q, hrun⟩ := scenario_update_run
    simp only [State.start] at hrun
    rw [hrun]
    exact ⟨Event.executeChangeSet ⟨some ("stk-" ++ toString (1700000000 : Int)), some "foo"⟩
      none, by simp, rfl⟩

/-- C5: when `confirmAccount` returns false and no error (the account is declined), both
commands end at once without error, `createCmd` returning and `updateCmd` returning nil,
and neither run has issued a create-stack, create-change-set or execute-change-set
call. -/
theorem declined_account_stops_both_commands (w : World) (cmd : Command) (args : List String)
    (stdin : Stdin) (s1 : State)
    (h : confirmAccount w (State.start stdin) = (.ret (false, none), s1)) :
    (createCmd w cmd args (State.start stdin)).1 = .ret () ∧
    (∀ e ∈ (createCmd w cmd args (State.start stdin)).2.trace, e.isMutation = false) ∧
    (updateCmd w cmd args (State.start stdin)).1 = .ret none ∧
    (∀ e ∈ (updateCmd w cmd args (State.start stdin)).2.trace, e.isMutation = false) := by
  obtain ⟨printed, htrace⟩ := confirmAccount_ret_trace w _ s1 false h
  have hquiet : ∀ e ∈ s1.trace, e.isMutation = false := by
    intro e he
    rw [htrace] at he
    simp only [State.start, List.nil_append, List.mem_cons, List.mem_singleton,
      List.not_mem_nil, or_false] at he
    rcases he with rfl | rfl | rfl <;> rfl
  simp only [createCmd, updateCmd, h]
  exact ⟨trivial, hquiet, trivial, hquiet⟩

/-- C5 in the scenario world, the operator answering `n` to the account prompt. -/
theorem declined_account_stops_both_commands_witness :
    (createCmd scenarioWorld scenarioCmd ["foo"] (State.start [['n', '\n']])).1 = .ret () ∧
    (updateCmd scenarioWorld scenarioCmd ["foo"] (State.start [['n', '\n']])).1 = .ret none ∧
    (∀ e ∈ (updateCmd scenarioWorld scenarioCmd ["foo"] (State.start [['n', '\n']])).2.trace,
      e.isMutation = false) := by
  have h := declined_account_stops_both_commands scenarioWorld scenarioCmd ["foo"]
    [['n', '\n']] (confirmAccount scenarioWorld (State.start [['n', '\n']])).2
    (by
      simp [confirmAccount, scenarioWorld, derefAll, yn, State.start, NewReader,
        Reader.ReadString, ReadString.loop, cutAfter, defaultBufSize]
      decide)
  exact ⟨h.1, h.2.2.1, h.2.2.2⟩

/-- C4: in a run of `updateCmd`, an execute-change-set call comes right after the execute
prompt answered true, itself right after the wait for the change set returning no error;
that prompt is the second one of the run, and the run has no other execute call. -/
theorem execute_only_after_ready_and_confirmed (w : World) (cmd : Command)
    (args : List String) (stdin : Stdin) (e : Event)
    (he : e ∈ (updateCmd w cmd args (State.start stdin)).2.trace)
    (hexec : e.isExecute = true) :
    ∃ (before after : List Event) (describe : DescribeChangeSetInput) (name region : String),
      (updateCmd w cmd args (State.start stdin)).2.trace =
        before ++
          Event.waitUntilChangeSetCreateComplete describe none ::
          Event.yn ("execute change set " ++ name ++ " in region " ++ region ++ "?"
            ++ " (y/n): ") true ::
          e :: after ∧
      before.countP Event.isPrompt = 1 ∧
      (∀ x ∈ before, x.isExecute = false) ∧ (∀ x ∈ after, x.isExecute = false) := by
  rcases updateCmd_shapes w cmd args stdin with h | ⟨p, input, describe, err, -, h⟩ |
    ⟨p, input, describe, tail, h, htail⟩ |
    ⟨p, input, describe, name, region, execute, err, tail, h, htail⟩
  · rw [(h e he).2] at hexec
    cases hexec
  · rw [h] at he
    simp only [List.mem_cons, List.mem_singleton, List.not_mem_nil, or_false] at he
    rcases he with rfl | rfl | rfl | rfl | rfl <;> cases hexec
  · rw [h] at he
    rcases htail with rfl | ⟨q, rfl⟩ <;>
      simp only [List.mem_cons, List.mem_singleton, List.not_mem_nil, or_false,
        List.cons_append, List.nil_append, List.append_nil] at he <;>
      (rcases he with rfl | rfl | rfl | rfl | rfl | rfl) <;> cases hexec
  · rw [h] at he ⊢
    refine ⟨[Event.getCallerIdentity, Event.listAccountAliases, Event.yn p true,
      Event.createChangeSet input none], tail, describe, name, region, ?_, rfl, ?_, ?_⟩
    · rcases htail with rfl | ⟨text, rfl⟩ <;>
        simp only [List.mem_cons, List.mem_singleton, List.not_mem_nil, or_false,
          List.cons_append, List.nil_append, List.append_nil] at he <;>
        (rcases he with rfl | rfl | rfl | rfl | rfl | rfl | rfl | rfl) <;>
        first
          | cases hexec; done
          | simp
    · intro x hx
      simp only [List.mem_cons, List.mem_singleton, List.not_mem_nil, or_false] at hx
      rcases hx with rfl | rfl | rfl | rfl <;> rfl
    · intro x hx
      rcases htail with rfl | ⟨text, rfl⟩
      · cases hx
      · simp only [List.mem_singleton] at hx
        subst hx
        rfl

/-- C4 in scenario B: the execute call of the run comes after the successful wait and the
execute prompt answered true. -/
theorem execute_only_after_ready_and_confirmed_witness :
    ∃ (before after : List Event) (describe : DescribeChangeSetInput) (name region : String),
      (updateCmd scenarioWorld scenarioCmd ["foo"]
          (State.start [['y', '\n'], ['y', '\n']])).2.trace =
        before ++
          Event.waitUntilChangeSetCreateComplete describe none ::
          Event.yn ("execute change set " ++ name ++ " in region " ++ region ++ "?"
            ++ " (y/n): ") true ::
          Event.executeChangeSet
            ⟨some ("stk-" ++ toString (1700000000 : Int)), some "foo"⟩ none :: after ∧
      before.countP Event.isPrompt = 1 ∧
      (∀ x ∈ before, x.isExecute = false) ∧ (∀ x ∈ after, x.isExecute = false) :=
  execute_only_after_ready_and_confirmed scenarioWorld scenarioCmd ["foo"]
    [['y', '\n'], ['y', '\n']]
    (Event.executeChangeSet ⟨some ("stk-" ++ toString (1700000000 : Int)), some "foo"⟩ none)
    (by
      obtain ⟨p, q, hrun⟩ := scenario_update_run
      rw [hrun]
      simp)
    rfl

/-- C6: in a run of `updateCmd`, when the wait for the change set returns an error, the
run returns that error, the wait is its last event, only one prompt (the account prompt)
has been shown, before the wait, and no execute-change-set call is issued. -/
theorem failed_wait_ends_update (w : World) (cmd : Command) (args : List String)
    (stdin : Stdin) (describe : DescribeChangeSetInput) (err : Error)
    (h : Event.waitUntilChangeSetCreateComplete describe (some err) ∈
      (updateCmd w cmd args (State.start stdin)).2.trace) :
    (updateCmd w cmd args (State.start stdin)).1 = .ret (some err) ∧
    (∃ before : List Event,
      (updateCmd w cmd args (State.start stdin)).2.trace =
        before ++ [Event.waitUntilChangeSetCreateComplete describe (some err)] ∧
      before.countP Event.isPrompt = 1) ∧
    (∀ x ∈ (updateCmd w cmd args (State.start stdin)).2.trace, x.isPrompt = true →
      ∃ printed : String, x = Event.yn printed true) ∧
    (∀ x ∈ (updateCmd w cmd args (State.start stdin)).2.trace, x.isExecute = false) := by
  rcases updateCmd_shapes w cmd args stdin with hs | ⟨p, input, describe1, err1, hret, hs⟩ |
    ⟨p, input, describe1, tail, hs, htail⟩ |
    ⟨p, input, describe1, name, region, execute, err1, tail, hs, htail⟩
  · have hno := (hs _ h).1
    cases hno
  · rw [hs] at h ⊢
    simp only [List.mem_cons, List.mem_singleton, List.not_mem_nil, or_false, reduceCtorEq,
      false_or, Event.waitUntilChangeSetCreateComplete.injEq, Option.some.injEq] at h
    obtain ⟨rfl, rfl⟩ := h
    refine ⟨hret, ⟨[Event.getCallerIdentity, Event.listAccountAliases, Event.yn p true,
      Event.createChangeSet input none], rfl, rfl⟩, ?_, ?_⟩
    · intro x hx hprompt
      simp only [List.mem_cons, List.mem_singleton, List.not_mem_nil, or_false] at hx
      rcases hx with rfl | rfl | rfl | rfl | rfl
      · cases hprompt
      · cases hprompt
      · exact ⟨p, rfl⟩
      · cases hprompt
      · cases hprompt
    · intro x hx
      simp only [List.mem_cons, List.mem_singleton, List.not_mem_nil, or_false] at hx
      rcases hx with rfl | rfl | rfl | rfl | rfl <;> rfl
  · rw [hs] at h
    rcases htail with rfl | ⟨q, rfl⟩ <;>
      simp [reduceCtorEq] at h
  · rw [hs] at h
    rcases htail with rfl | ⟨text, rfl⟩ <;>
      simp [reduceCtorEq] at h

/-- C6 where the change set of stack `foo` fails to compute: the run returns the error of
the wait and ends there. -/
theorem failed_wait_ends_update_witness :
    (updateCmd failedWaitWorld scenarioCmd ["foo"] (State.start [['y', '\n'], ['y', '\n']])).1 =
      .ret (some "ResourceNotReady: failed waiting for successful resource state") ∧
    (∀ x ∈ (updateCmd failedWaitWorld scenarioCmd ["foo"]
        (State.start [['y', '\n'], ['y', '\n']])).2.trace, x.isExecute = false) := by
  have h := failed_wait_ends_update failedWaitWorld scenarioCmd ["foo"]
    [['y', '\n'], ['y', '\n']]
    ⟨some ("stk-" ++ toString (1700000000 : Int)), some "foo"⟩
    "ResourceNotReady: failed waiting for successful resource state"
    (by
      obtain ⟨p, hrun⟩ := failedWait_update_run
      rw [hrun]
      simp)
  exact ⟨h.1, h.2.2.2⟩

/-- C7: in a run of `createCmd` that has confirmed the account and built the request, when
the prompt `create stack <name> in region <region>?` is answered false, the run returns
without panic or exit, its last event is that prompt, and it has issued no create-stack
call (nor any other mutation). -/
theorem declined_creation_issues_no_create (w : World) (cmd : Command) (args : List String)
    (stdin : Stdin) (s1 : State) (svc : CloudFormation) (params : CFNParams)
    (stackName region : String)
    (hconfirm : confirmAccount w (State.start stdin) = (.ret (true, none), s1))
    (hparams : getCFNParams w cmd args = .ret (some svc, some params, none))
    (hname : params.CreateStackInput.StackName = some stackName)
    (hregion : svc.Region = some region)
    (hdeclined :
      (yn ("create stack " ++ stackName ++ " in region " ++ region ++ "?") s1).1 = false) :
    (createCmd w cmd args (State.start stdin)).1 = .ret () ∧
    (createCmd w cmd args (State.start stdin)).2.trace =
      s1.trace ++ [Event.yn ("create stack " ++ stackName ++ " in region " ++ region ++ "?"
        ++ " (y/n): ") false] ∧
    (∀ e ∈ (createCmd w cmd args (State.start stdin)).2.trace,
      e.isCreateStack = false ∧ e.isMutation = false) := by
  obtain ⟨printed, htrace⟩ := confirmAccount_ret_trace w _ s1 true hconfirm
  rcases hyn : yn ("create stack " ++ stackName ++ " in region " ++ region ++ "?") s1
    with ⟨c, s2⟩
  have htr := yn_trace ("create stack " ++ stackName ++ " in region " ++ region ++ "?") s1
  rw [hyn] at hdeclined htr
  simp only at hdeclined htr
  subst hdeclined
  simp only [createCmd, hconfirm, hparams, hname, hregion, hyn]
  refine ⟨trivial, htr, ?_⟩
  intro e he
  rw [htr, htrace] at he
  simp only [State.start, List.nil_append, List.cons_append, List.mem_cons, List.mem_singleton,
    List.not_mem_nil, or_false] at he
  rcases he with rfl | rfl | rfl | rfl <;> exact ⟨rfl, rfl⟩

/-- C7 in the scenario world: `create foo`, the account confirmed and the creation
declined. -/
theorem declined_creation_issues_no_create_witness :
    (createCmd scenarioWorld scenarioCmd ["foo"] (State.start [['y', '\n'], ['n', '\n']])).1 =
      .ret () ∧
    (∀ e ∈ (createCmd scenarioWorld scenarioCmd ["foo"]
        (State.start [['y', '\n'], ['n', '\n']])).2.trace,
      e.isCreateStack = false ∧ e.isMutation = false) := by
  obtain ⟨p, hp⟩ := scenario_confirmAccount_y [['n', '\n']]
  have h := declined_creation_issues_no_create scenarioWorld scenarioCmd ["foo"]
    [['y', '\n'], ['n', '\n']] _ ⟨some "us-east-1"⟩ _ "foo" "us-east-1" hp
    scenario_getCFNParams_foo rfl rfl (by rw [yn_line_n])
  exact ⟨h.1, h.2.2⟩

end Stk
